import Mathlib

/-!
# A verification model of `src/mini-app-bridge.js`

This file gives a shallow embedding of the mini-app bridge: a JS-like value
type with JS truthiness, a JSON parser modelling `JSON.parse`, and a pure
state machine for the bridge (pending-request registry, timers, event
listener table, params store).  Promise settlements, listener invocations
and transport sends are recorded in an explicit action trace.
-/

set_option autoImplicit false

namespace MiniAppBridge

/-- A JavaScript value as far as the bridge observes it.  Numbers are
modelled as rationals (every JSON numeric literal denotes a rational;
the float rounding of the JS engine is not observable by any property
considered here). -/
inductive JSValue where
  | undefined
  | null
  | bool (b : Bool)
  | num (q : Rat)
  | str (s : String)
  | arr (elems : List JSValue)
  | obj (fields : List (String × JSValue))
deriving Repr

mutual

/-- Structural equality test for `JSValue` (the automatic derivation does
not handle the nested lists). -/
def beqVal : JSValue → JSValue → Bool
  | .undefined, .undefined => true
  | .null, .null => true
  | .bool a, .bool b => decide (a = b)
  | .num a, .num b => decide (a = b)
  | .str a, .str b => decide (a = b)
  | .arr a, .arr b => beqElems a b
  | .obj a, .obj b => beqFields a b
  | _, _ => false

def beqElems : List JSValue → List JSValue → Bool
  | [], [] => true
  | x :: xs, y :: ys => beqVal x y && beqElems xs ys
  | _, _ => false

def beqFields : List (String × JSValue) → List (String × JSValue) → Bool
  | [], [] => true
  | (k, v) :: xs, (l, w) :: ys => decide (k = l) && beqVal v w && beqFields xs ys
  | _, _ => false

end

mutual

theorem beqVal_eq : ∀ a b : JSValue, beqVal a b = true → a = b
  | .undefined, .undefined, _ => rfl
  | .null, .null, _ => rfl
  | .bool a, .bool b, h => by
      simp only [beqVal, decide_eq_true_eq] at h; rw [h]
  | .num a, .num b, h => by
      simp only [beqVal, decide_eq_true_eq] at h; rw [h]
  | .str a, .str b, h => by
      simp only [beqVal, decide_eq_true_eq] at h; rw [h]
  | .arr a, .arr b, h => by
      rw [beqElems_eq a b (by simpa only [beqVal] using h)]
  | .obj a, .obj b, h => by
      rw [beqFields_eq a b (by simpa only [beqVal] using h)]

theorem beqElems_eq : ∀ a b : List JSValue, beqElems a b = true → a = b
  | [], [], _ => rfl
  | x :: xs, y :: ys, h => by
      simp only [beqElems, Bool.and_eq_true] at h
      rw [beqVal_eq x y h.1, beqElems_eq xs ys h.2]

theorem beqFields_eq :
    ∀ a b : List (String × JSValue), beqFields a b = true → a = b
  | [], [], _ => rfl
  | (k, v) :: xs, (l, w) :: ys, h => by
      simp only [beqFields, Bool.and_eq_true, decide_eq_true_eq] at h
      rw [h.1.1, beqVal_eq v w h.1.2, beqFields_eq xs ys h.2]

end

mutual

theorem beqVal_refl : ∀ a : JSValue, beqVal a a = true
  | .undefined => rfl
  | .null => rfl
  | .bool a => by simp [beqVal]
  | .num a => by simp [beqVal]
  | .str a => by simp [beqVal]
  | .arr a => by simpa only [beqVal] using beqElems_refl a
  | .obj a => by simpa only [beqVal] using beqFields_refl a

theorem beqElems_refl : ∀ a : List JSValue, beqElems a a = true
  | [] => rfl
  | x :: xs => by
      simp only [beqElems, Bool.and_eq_true]
      exact ⟨beqVal_refl x, beqElems_refl xs⟩

theorem beqFields_refl : ∀ a : List (String × JSValue), beqFields a a = true
  | [] => rfl
  | (k, v) :: xs => by
      simp only [beqFields, Bool.and_eq_true, decide_eq_true_eq]
      exact ⟨⟨trivial, beqVal_refl v⟩, beqFields_refl xs⟩

end

instance : DecidableEq JSValue := fun a b =>
  if h : beqVal a b = true then .isTrue (beqVal_eq a b h)
  else .isFalse (fun he => h (he ▸ beqVal_refl a))

/-- JS truthiness: `undefined`, `null`, `false`, `0`, `NaN` and `""` are
falsy, everything else (all objects and arrays included) is truthy. -/
def toBool : JSValue → Bool
  | .undefined => false
  | .null => false
  | .bool b => b
  | .num q => decide (q ≠ 0)
  | .str s => decide (s ≠ "")
  | .arr _ => true
  | .obj _ => true

/-- Property read `v[k]` for a string key on a value that is known to be
truthy (so no TypeError can occur): objects yield the stored field,
everything else yields `undefined`. -/
def jsGet (v : JSValue) (k : String) : JSValue :=
  match v with
  | .obj fields =>
      match fields.find? (fun p => p.1 = k) with
      | some p => p.2
      | none => .undefined
  | _ => .undefined

/-- `a || b` in JS: the first operand if truthy, otherwise the second. -/
def jsOr (a b : JSValue) : JSValue :=
  if toBool a then a else b

/-- The character for a single decimal digit `d < 10`. -/
def digitChar (d : Nat) : Char := Char.ofNat (48 + d)

/-- Big-endian decimal digits of `n` (empty for `0`); the first argument is
fuel, always called with fuel `≥ n`. -/
def decDigits : Nat → Nat → List Char
  | 0, _ => []
  | fuel + 1, n => if n = 0 then [] else decDigits fuel (n / 10) ++ [digitChar (n % 10)]

/-- Decimal rendering of a natural number, modelling the JS number-to-string
conversion on the non-negative integers produced by `Date.now()` and the
request counter. -/
def decimalStr (n : Nat) : String :=
  if n = 0 then "0" else String.mk (decDigits n n)

/-- Decimal rendering of an integer. -/
def intStr (i : Int) : String :=
  if i < 0 then "-" ++ decimalStr i.natAbs else decimalStr i.natAbs

/-- Smallest `k ≤ 400` such that `q * 10^k` is an integer, if any. -/
def decExp (q : Rat) : Option Nat :=
  (List.range 400).find? (fun k => 10 ^ k % q.den = 0)

/-- JS rendering of a number as a string.  Integers render exactly; a
non-integer with a terminating decimal expansion (the only numbers the JSON
parser below can produce) renders with its shortest expansion.  The JS
exponential notation for magnitudes `≥ 1e21` is not modelled; no claim
depends on it. -/
def ratToStr (q : Rat) : String :=
  if q.den = 1 then intStr q.num
  else
    match decExp q with
    | some k =>
        let digits := decimalStr (q.num.natAbs * (10 ^ k / q.den))
        let padded := String.mk (List.replicate (k + 1 - digits.length) '0') ++ digits
        let ip := padded.take (padded.length - k)
        let fp := padded.drop (padded.length - k)
        (if q.num < 0 then "-" else "") ++ ip ++ "." ++ fp
    | none => "NaN"

mutual

/-- The JS ToString conversion applied when a value is used as a property
key (`callbackRegistry[id]`, `eventListeners[name]`, `paramsStore[key]`). -/
def jsKey : JSValue → String
  | .undefined => "undefined"
  | .null => "null"
  | .bool b => if b then "true" else "false"
  | .num q => ratToStr q
  | .str s => s
  | .arr es => String.intercalate "," (jsKeyElems es)
  | .obj _ => "[object Object]"

/-- Stringification of array elements for `Array.prototype.toString`:
`null` and `undefined` render as the empty string. -/
def jsKeyElems : List JSValue → List String
  | [] => []
  | .null :: rest => "" :: jsKeyElems rest
  | .undefined :: rest => "" :: jsKeyElems rest
  | v :: rest => jsKey v :: jsKeyElems rest

end

/-! ## A model of `JSON.parse`, used by `safeParseJSON` -/

/-- JSON whitespace. -/
def isWsChar (c : Char) : Bool :=
  c == ' ' || c == '\t' || c == '\n' || c == '\r'

/-- Drop leading JSON whitespace. -/
def skipWs : List Char → List Char
  | [] => []
  | c :: rest => if isWsChar c then skipWs rest else c :: rest

/-- Value of a hexadecimal digit. -/
def hexVal (c : Char) : Option Nat :=
  let n := c.toNat
  if 48 ≤ n ∧ n ≤ 57 then some (n - 48)
  else if 97 ≤ n ∧ n ≤ 102 then some (n - 87)
  else if 65 ≤ n ∧ n ≤ 70 then some (n - 55)
  else none

/-- The character denoted by a single-character JSON escape. -/
def escChar (e : Char) : Option Char :=
  if e = '"' then some '"'
  else if e = '\\' then some '\\'
  else if e = '/' then some '/'
  else if e = 'b' then some (Char.ofNat 8)
  else if e = 'f' then some (Char.ofNat 12)
  else if e = 'n' then some '\n'
  else if e = 'r' then some '\r'
  else if e = 't' then some '\t'
  else none

/-- Parse the body of a JSON string literal (the opening quote already
consumed), returning the decoded characters and the remaining input. -/
def parseStrChars : List Char → Option (List Char × List Char)
  | [] => none
  | c :: rest =>
    if c = '"' then some ([], rest)
    else if c = '\\' then
      match rest with
      | [] => none
      | e :: rest2 =>
        if e = 'u' then
          match rest2 with
          | h1 :: h2 :: h3 :: h4 :: rest3 =>
            match hexVal h1, hexVal h2, hexVal h3, hexVal h4 with
            | some a, some b, some c2, some d =>
                (parseStrChars rest3).map
                  (fun p => (Char.ofNat (((a * 16 + b) * 16 + c2) * 16 + d) :: p.1, p.2))
            | _, _, _, _ => none
          | _ => none
        else
          match escChar e with
          | some ec => (parseStrChars rest2).map (fun p => (ec :: p.1, p.2))
          | none => none
    else if c.toNat < 32 then none
    else (parseStrChars rest).map (fun p => (c :: p.1, p.2))

/-- Split a maximal run of decimal digits off the front of the input. -/
def takeDigits : List Char → List Char × List Char
  | [] => ([], [])
  | c :: rest =>
    if c.isDigit then
      let p := takeDigits rest
      (c :: p.1, p.2)
    else ([], c :: rest)

/-- Numeric value of a big-endian digit run. -/
def digitsToNat (ds : List Char) : Nat :=
  ds.foldl (fun a c => a * 10 + (c.toNat - 48)) 0

/-- Parse a JSON number literal (grammar: `-? (0 | [1-9][0-9]*) frac? exp?`). -/
def parseNumber (cs : List Char) : Option (Rat × List Char) :=
  let sign : Bool × List Char :=
    match cs with
    | '-' :: r => (true, r)
    | _ => (false, cs)
  match sign.2 with
  | [] => none
  | c :: _ =>
    if ¬ c.isDigit then none
    else
      let ip := takeDigits sign.2
      if ip.1.length > 1 ∧ ip.1.head? = some '0' then none
      else
        let fracPart : Option (List Char × List Char) :=
          match ip.2 with
          | '.' :: r =>
              let p := takeDigits r
              if p.1 = [] then none else some p
          | _ => some ([], ip.2)
        match fracPart with
        | none => none
        | some (fds, cs3) =>
          let expPart : Option (Bool × Nat × List Char) :=
            match cs3 with
            | c2 :: r =>
                if c2 = 'e' ∨ c2 = 'E' then
                  let es : Bool × List Char :=
                    match r with
                    | '+' :: rr => (false, rr)
                    | '-' :: rr => (true, rr)
                    | _ => (false, r)
                  let p := takeDigits es.2
                  if p.1 = [] then none else some (es.1, digitsToNat p.1, p.2)
                else some (false, 0, c2 :: r)
            | [] => some (false, 0, [])
          match expPart with
          | none => none
          | some (eneg, e, cs4) =>
            let mantissa : Nat := digitsToNat ip.1 * 10 ^ fds.length + digitsToNat fds
            let sNum : Int := if sign.1 then -(mantissa : Int) else (mantissa : Int)
            let q : Rat :=
              if eneg then mkRat sNum (10 ^ (fds.length + e))
              else mkRat (sNum * 10 ^ e) (10 ^ fds.length)
            some (q, cs4)

/-- Consume an expected literal continuation (`rue`, `alse`, `ull`). -/
def stripLit : List Char → List Char → Option (List Char)
  | [], rest => some rest
  | l :: ls, c :: rest => if c = l then stripLit ls rest else none
  | _ :: _, [] => none

/-- Insert a field into an object under construction with the JS duplicate
key rule: the first occurrence keeps its position, the last value wins. -/
def objInsert (k : String) (v : JSValue) : List (String × JSValue) → List (String × JSValue)
  | [] => [(k, v)]
  | (l, w) :: rest => if l = k then (k, v) :: rest else (l, w) :: objInsert k v rest

mutual

/-- Fuelled recursive-descent parser for a JSON value. -/
def parseVal : Nat → List Char → Option (JSValue × List Char)
  | 0, _ => none
  | fuel + 1, cs =>
    match skipWs cs with
    | [] => none
    | c :: rest =>
      if c = '"' then (parseStrChars rest).map (fun p => (.str (String.mk p.1), p.2))
      else if c = '{' then
        match skipWs rest with
        | '}' :: rm => some (.obj [], rm)
        | cs2 => (parseMembers fuel cs2 []).map (fun p => (.obj p.1, p.2))
      else if c = '[' then
        match skipWs rest with
        | ']' :: rm => some (.arr [], rm)
        | cs2 => (parseItems fuel cs2 []).map (fun p => (.arr p.1, p.2))
      else if c = 't' then (stripLit ['r', 'u', 'e'] rest).map (fun rm => (.bool true, rm))
      else if c = 'f' then (stripLit ['a', 'l', 's', 'e'] rest).map (fun rm => (.bool false, rm))
      else if c = 'n' then (stripLit ['u', 'l', 'l'] rest).map (fun rm => (.null, rm))
      else (parseNumber (c :: rest)).map (fun p => (.num p.1, p.2))

/-- Parse the remaining comma-separated elements of a non-empty array. -/
def parseItems : Nat → List Char → List JSValue → Option (List JSValue × List Char)
  | 0, _, _ => none
  | fuel + 1, cs, acc =>
    match parseVal fuel cs with
    | none => none
    | some (v, rm) =>
      match skipWs rm with
      | ',' :: rm2 => parseItems fuel rm2 (acc ++ [v])
      | ']' :: rm2 => some (acc ++ [v], rm2)
      | _ => none

/-- Parse the remaining members of a non-empty object. -/
def parseMembers : Nat → List Char → List (String × JSValue) →
    Option (List (String × JSValue) × List Char)
  | 0, _, _ => none
  | fuel + 1, cs, acc =>
    match skipWs cs with
    | '"' :: rest =>
      match parseStrChars rest with
      | none => none
      | some (kcs, rm) =>
        match skipWs rm with
        | ':' :: rm2 =>
          match parseVal fuel rm2 with
          | none => none
          | some (v, rm3) =>
            let acc2 := objInsert (String.mk kcs) v acc
            match skipWs rm3 with
            | ',' :: rm4 => parseMembers fuel rm4 acc2
            | '}' :: rm4 => some (acc2, rm4)
            | _ => none
        | _ => none
    | _ => none

end

/-- `JSON.parse`: a whole JSON text, allowing surrounding whitespace,
failing on trailing garbage.  The fuel `2 * length + 2` dominates the
recursion depth of any parse of the given text. -/
def parseJSON (s : String) : Option JSValue :=
  match parseVal (2 * s.length + 2) s.data with
  | none => none
  | some (v, rm) => if skipWs rm = [] then some v else none

/-!  ## The bridge state machine

The mutable module state of `mini-app-bridge.js` (`paramsStore`,
`callbackRegistry`, `requestIdCounter`, `eventListeners`) becomes an
explicit record, extended with the set of scheduled-and-uncancelled
timeouts (`setTimeout` handles owned by pending entries) and the current
`Date.now()` value.  JS objects used as string-keyed tables become
association lists with unique keys.  Each operation returns the new state
together with a trace of its observable actions: promise settlements,
listener invocations and transport sends.  The `resolve`/`reject`
continuations captured by a pending entry are represented by the request
id naming them in the trace. -/

/-- First value stored under a key (JS property read on a table object). -/
def lookupStr {α : Type} (k : String) (l : List (String × α)) : Option α :=
  match l.find? (fun p => p.1 = k) with
  | some p => some p.2
  | none => none

/-- JS property assignment on a table: overwrite in place, else append. -/
def insertKey {α : Type} (k : String) (v : α) : List (String × α) → List (String × α)
  | [] => [(k, v)]
  | (l, w) :: rest => if l = k then (k, v) :: rest else (l, w) :: insertKey k v rest

/-- JS `delete table[k]`. -/
def eraseKey {α : Type} (k : String) (l : List (String × α)) : List (String × α) :=
  l.filter (fun p => p.1 ≠ k)

/-- One entry of `callbackRegistry`: `{ resolve, reject, timestamp,
timeoutId }`, the two continuations being represented by the request id. -/
structure PendingEntry where
  timestamp : Nat
  timeoutId : Nat
deriving Repr, DecidableEq

/-- The bridge's mutable state. -/
structure BridgeState where
  paramsStore : List (String × JSValue)
  callbackRegistry : List (String × PendingEntry)
  requestIdCounter : Nat
  eventListeners : List (String × List Nat)
  /-- Timers scheduled by `setTimeout` and not yet cancelled or fired,
  as pairs of the timer handle and the request id the timer settles. -/
  activeTimeouts : List (Nat × String)
  /-- Generator for fresh `setTimeout` handles. -/
  nextTimeoutId : Nat
  /-- The current `Date.now()` reading. -/
  now : Nat
deriving Repr, DecidableEq

/-- The module state right after the IIFE initialises its variables
(line 18-22 of the source): empty tables, counter seeded at 1. -/
def initialState : BridgeState :=
  { paramsStore := []
    callbackRegistry := []
    requestIdCounter := 1
    eventListeners := []
    activeTimeouts := []
    nextTimeoutId := 0
    now := 0 }

/-- The host environment: whether `window.SuperAppChannel` exists, whether
its `postMessage` raises (and with what error message), and which listener
callbacks raise when invoked. -/
structure Env where
  channelPresent : Bool
  sendFails : Option String
  cbThrows : Nat → Bool

/-- An argument passed where the bridge expects a callback: either a
function value (identified by a handle, compared by reference) or some
non-function value. -/
inductive JSArg where
  | fn (f : Nat)
  | val (v : JSValue)
deriving Repr, DecidableEq

/-- Observable actions of one operation, in order. -/
inductive Action where
  /-- `window.SuperAppChannel.postMessage` was invoked with the
  serialisation of `{id, className, method, params}`. -/
  | send (id : String) (className : String) (method : String) (params : JSValue)
  /-- The `resolve` continuation of the pending entry `id` was invoked. -/
  | resolve (id : String) (v : JSValue)
  /-- The `reject` continuation of the pending entry `id` was invoked
  with a host-supplied (or timeout) payload. -/
  | reject (id : String) (e : JSValue)
  /-- Listener callback `cb` was invoked with `data`. -/
  | invoke (cb : Nat) (data : JSValue)
deriving Repr, DecidableEq

/-- How `call` left the promise it returned. -/
inductive CallOutcome where
  /-- Registered under the given fresh request id; settles later. -/
  | pending (id : String)
  /-- Rejected before `call` returned, with `new Error(errMsg)`. -/
  | rejected (errMsg : String)
deriving Repr, DecidableEq

/-- `generateRequestId` (line 25-27). -/
def generateRequestId (now ctr : Nat) : String :=
  "sa_" ++ decimalStr now ++ "_" ++ decimalStr ctr

/-- `safeParseJSON` (line 30-37): parse strings, pass everything else
through; a parse error is logged and turned into `null`. -/
def safeParseJSON (v : JSValue) : JSValue :=
  match v with
  | .str s =>
      match parseJSON s with
      | some r => r
      | none => .null
  | _ => v

/-- The validation `typeof x === 'string' && x` used on `className`,
`methodName` and `eventName` (a non-empty string). -/
def isNonEmptyString : JSValue → Bool
  | .str s => decide (s ≠ "")
  | _ => false

/-- The string carried by a value known to satisfy `isNonEmptyString`. -/
def strVal : JSValue → String
  | .str s => s
  | _ => ""

/-- `clearTimeout`: drop the timer with the given handle (idempotent, and
a no-op on a handle that is not scheduled). -/
def clearTimeout (tid : Nat) (s : BridgeState) : BridgeState :=
  { s with activeTimeouts := s.activeTimeouts.filter (fun t => t.1 ≠ tid) }

/-- `handleSuccess` (line 95-104): if a pending entry exists for the id,
cancel its timeout, resolve it with the response and remove it; otherwise
do nothing. -/
def handleSuccess (requestId : String) (response : JSValue) (s : BridgeState) :
    BridgeState × List Action :=
  match lookupStr requestId s.callbackRegistry with
  | none => (s, [])
  | some entry =>
      let s1 := clearTimeout entry.timeoutId s
      ({ s1 with callbackRegistry := eraseKey requestId s1.callbackRegistry },
       [Action.resolve requestId response])

/-- `handleFailure` (line 107-114): if a pending entry exists for the id,
cancel its timeout, reject it with the error and remove it; otherwise do
nothing. -/
def handleFailure (requestId : String) (error : JSValue) (s : BridgeState) :
    BridgeState × List Action :=
  match lookupStr requestId s.callbackRegistry with
  | none => (s, [])
  | some entry =>
      let s1 := clearTimeout entry.timeoutId s
      ({ s1 with callbackRegistry := eraseKey requestId s1.callbackRegistry },
       [Action.reject requestId error])

/-- The payload of the timeout rejection (line 61). -/
def timeoutPayload : JSValue := .obj [("error", .str "Request Timeout")]

/-- The body of the `setTimeout` callback scheduled by `call`
(line 59-63), as run by the event loop for the timer `(tid, rid)`: a
cancelled timer never runs; a live timer is consumed and its callback
settles the request through `handleFailure` if it is still pending. -/
def fireTimeout (tid : Nat) (rid : String) (s : BridgeState) : BridgeState × List Action :=
  if (tid, rid) ∈ s.activeTimeouts then
    let s0 := clearTimeout tid s
    match lookupStr rid s0.callbackRegistry with
    | some _ => handleFailure rid timeoutPayload s0
    | none => (s0, [])
  else (s, [])

/-- `call` (line 45-92). -/
def call (env : Env) (className methodName params : JSValue) (s : BridgeState) :
    BridgeState × List Action × CallOutcome :=
  if ¬ isNonEmptyString className then (s, [], .rejected "Invalid className")
  else if ¬ isNonEmptyString methodName then (s, [], .rejected "Invalid methodName")
  else
    let requestId := generateRequestId s.now s.requestIdCounter
    let tid := s.nextTimeoutId
    let s1 : BridgeState :=
      { s with
        requestIdCounter := s.requestIdCounter + 1
        nextTimeoutId := tid + 1
        activeTimeouts := s.activeTimeouts ++ [(tid, requestId)]
        callbackRegistry :=
          insertKey requestId { timestamp := s.now, timeoutId := tid } s.callbackRegistry }
    if env.channelPresent then
      match env.sendFails with
      | none =>
          (s1, [Action.send requestId (strVal className) (strVal methodName) params],
           .pending requestId)
      | some m =>
          let s2 := clearTimeout tid s1
          ({ s2 with callbackRegistry := eraseKey requestId s2.callbackRegistry },
           [Action.send requestId (strVal className) (strVal methodName) params],
           .rejected ("Failed to send message: " ++ m))
    else
      let s2 := clearTimeout tid s1
      ({ s2 with callbackRegistry := eraseKey requestId s2.callbackRegistry },
       [], .rejected "SuperAppChannel is not available!")

/-- `addListener` (line 117-134); the returned unregistration closure is
`removeListener` applied to the same two arguments.  An empty list is
truthy in JS, so the `!eventListeners[eventName]` test is a presence
test. -/
def addListener (eventName : JSValue) (callback : JSArg) (s : BridgeState) : BridgeState :=
  if ¬ isNonEmptyString eventName then s
  else
    match callback with
    | .val _ => s
    | .fn f =>
        let key := strVal eventName
        match lookupStr key s.eventListeners with
        | none => { s with eventListeners := insertKey key [f] s.eventListeners }
        | some cbs => { s with eventListeners := insertKey key (cbs ++ [f]) s.eventListeners }

/-- `removeListener` (line 137-151): filter out the entries reference-equal
to `callback`, and delete the event's slot if the remaining list is
empty. -/
def removeListener (eventName : JSValue) (callback : JSArg) (s : BridgeState) : BridgeState :=
  match lookupStr (jsKey eventName) s.eventListeners with
  | none => s
  | some cbs =>
      let filtered := cbs.filter (fun c => JSArg.fn c ≠ callback)
      if filtered = [] then
        { s with eventListeners := eraseKey (jsKey eventName) s.eventListeners }
      else
        { s with eventListeners := insertKey (jsKey eventName) filtered s.eventListeners }

/-- The `forEach` body of `dispatchEvent`: invoke each callback in order;
an exception raised by a callback is caught by the `try`/`catch`
(line 162-166), logged, and iteration continues. -/
def runListenersCaught (env : Env) (data : JSValue) : List Nat → List Action
  | [] => []
  | cb :: rest =>
      if env.cbThrows cb then
        Action.invoke cb data :: runListenersCaught env data rest
      else
        Action.invoke cb data :: runListenersCaught env data rest

/-- `dispatchEvent` (line 154-168). -/
def dispatchEvent (env : Env) (eventName data : JSValue) (s : BridgeState) :
    BridgeState × List Action :=
  match lookupStr (jsKey eventName) s.eventListeners with
  | none => (s, [])
  | some cbs => (s, runListenersCaught env data cbs)

/-- `getRegisteredEvents` (line 171-173): `Object.keys(eventListeners)`.
(The JS enumeration order promotes integer-like keys; the model keeps
insertion order.  No claim depends on the order of this list.) -/
def getRegisteredEvents (s : BridgeState) : List String :=
  s.eventListeners.map (fun p => p.1)

/-- `typeof x === 'object' && x !== null`: objects and arrays. -/
def isObjectLike : JSValue → Bool
  | .obj _ => true
  | .arr _ => true
  | _ => false

/-- The own enumerable fields a value contributes under object spread:
an object's fields, or an array's elements keyed by their indices. -/
def fieldsOf : JSValue → List (String × JSValue)
  | .obj fs => fs
  | .arr es => (es.enum).map (fun p => (decimalStr p.1, p.2))
  | _ => []

/-- The object spread `{ ...a, ...b }`: keys of `a` in order with values
overridden from `b`, then the keys of `b` not in `a`, in order. -/
def mergeObj (a b : List (String × JSValue)) : List (String × JSValue) :=
  (a.map fun p =>
    (p.1, match lookupStr p.1 b with
          | some w => w
          | none => p.2)) ++
  b.filter (fun p => lookupStr p.1 a = none)

/-- `setParams` (line 176-185). -/
def setParams (env : Env) (newParams : JSValue) (s : BridgeState) :
    BridgeState × List Action :=
  if ¬ isObjectLike newParams then (s, [])
  else
    let merged := mergeObj s.paramsStore (fieldsOf newParams)
    dispatchEvent env (.str "paramsUpdated") (.obj merged) { s with paramsStore := merged }

/-- `getParams` (line 188-190): `key ? paramsStore[key] : {...paramsStore}`
(note the truthiness test on `key`). -/
def getParams (key : JSValue) (s : BridgeState) : JSValue :=
  if toBool key then
    match lookupStr (jsKey key) s.paramsStore with
    | some v => v
    | none => .undefined
  else .obj s.paramsStore

/-- The default error payload for an unsuccessful response that carries no
truthy `error` field (line 210). -/
def unknownErrorPayload : JSValue := .obj [("error", .str "Unknown error")]

/-- `typeof x === 'boolean'`. -/
def isBoolVal : JSValue → Bool
  | .bool _ => true
  | _ => false

/-- `receiveMessage` (line 193-216). -/
def receiveMessage (env : Env) (response : JSValue) (s : BridgeState) :
    BridgeState × List Action :=
  let res := safeParseJSON response
  if ¬ toBool res then (s, [])
  else if toBool (jsGet res "event") then
    dispatchEvent env (jsGet res "event") (jsGet res "data") s
  else if toBool (jsGet res "id") && isBoolVal (jsGet res "success") then
    if toBool (jsGet res "success") then
      handleSuccess (jsKey (jsGet res "id")) (jsGet res "data") s
    else
      handleFailure (jsKey (jsGet res "id")) (jsOr (jsGet res "error") unknownErrorPayload) s
  else (s, [])

/-- One externally triggered unit of work, for stating properties that
range over every operation of the bridge. -/
inductive Op where
  | call (className methodName params : JSValue)
  | handleSuccess (id : String) (v : JSValue)
  | handleFailure (id : String) (v : JSValue)
  | fireTimeout (tid : Nat) (rid : String)
  | addListener (eventName : JSValue) (callback : JSArg)
  | removeListener (eventName : JSValue) (callback : JSArg)
  | dispatchEvent (eventName data : JSValue)
  | setParams (newParams : JSValue)
  | receiveMessage (response : JSValue)

/-- Run one operation. -/
def step (env : Env) (op : Op) (s : BridgeState) : BridgeState × List Action :=
  match op with
  | .call cn mn p =>
      let r := call env cn mn p s
      (r.1, r.2.1)
  | .handleSuccess id v => handleSuccess id v s
  | .handleFailure id v => handleFailure id v s
  | .fireTimeout tid rid => fireTimeout tid rid s
  | .addListener n cb => (addListener n cb s, [])
  | .removeListener n cb => (removeListener n cb s, [])
  | .dispatchEvent n d => dispatchEvent env n d s
  | .setParams p => setParams env p s
  | .receiveMessage m => receiveMessage env m s

/-- The invariant of the subscriber table: no event name is mapped to an
empty listener list. -/
def goodTable (s : BridgeState) : Prop :=
  ∀ p ∈ s.eventListeners, p.2 ≠ []

/-- A host environment with the channel present, `postMessage` succeeding
and no listener throwing. -/
def envBase : Env := { channelPresent := true, sendFails := none, cbThrows := fun _ => false }

/-- A host environment without `window.SuperAppChannel`. -/
def envNoChannel : Env := { channelPresent := false, sendFails := none, cbThrows := fun _ => false }

/-- A state with a single pending request `"x"` owning timer `0`. -/
def pendingX : BridgeState :=
  { initialState with
    callbackRegistry := [("x", { timestamp := 0, timeoutId := 0 })]
    activeTimeouts := [(0, "x")]
    nextTimeoutId := 1 }

/-- An inbound message that carries an `event` field whose value is falsy,
together with a well-formed response correlation pair. -/
def eventFieldMsg : JSValue :=
  .obj [("event", .str ""), ("id", .str "x"), ("success", .bool true)]

/-- A state whose params store maps the empty-string key. -/
def emptyKeyStore : BridgeState :=
  { initialState with paramsStore := [("", .num 5)] }

/-- A state with two stored params. -/
def abStore : BridgeState :=
  { initialState with paramsStore := [("a", .num 1), ("b", .num 2)] }

/-! ## Helper lemmas about the string-keyed tables -/

theorem lookupStr_nil {α : Type} (k : String) : lookupStr k ([] : List (String × α)) = none := rfl

theorem lookupStr_cons {α : Type} (k k2 : String) (v : α) (l : List (String × α)) :
    lookupStr k ((k2, v) :: l) = if k2 = k then some v else lookupStr k l := by
  by_cases h : k2 = k <;> simp [lookupStr, List.find?, h]

theorem eraseKey_cons {α : Type} (k k0 : String) (w : α) (rest : List (String × α)) :
    eraseKey k ((k0, w) :: rest) =
      if k0 = k then eraseKey k rest else (k0, w) :: eraseKey k rest := by
  by_cases h : k0 = k <;> simp [eraseKey, h]

theorem lookupStr_insert_self {α : Type} (k : String) (v : α) (l : List (String × α)) :
    lookupStr k (insertKey k v l) = some v := by
  induction l with
  | nil => simp [insertKey, lookupStr_cons]
  | cons p rest ih =>
      obtain ⟨k0, w⟩ := p
      by_cases h : k0 = k
      · simp [insertKey, h, lookupStr_cons]
      · simp [insertKey, h, lookupStr_cons, ih]

theorem lookupStr_insert_ne {α : Type} (k k2 : String) (v : α) (l : List (String × α))
    (h : k2 ≠ k) : lookupStr k2 (insertKey k v l) = lookupStr k2 l := by
  induction l with
  | nil => simp [insertKey, lookupStr_cons, lookupStr_nil, Ne.symm h]
  | cons p rest ih =>
      obtain ⟨k0, w⟩ := p
      by_cases h0 : k0 = k
      · subst h0
        simp [insertKey, lookupStr_cons, Ne.symm h]
      · simp [insertKey, h0, lookupStr_cons, ih]

theorem lookupStr_erase_self {α : Type} (k : String) (l : List (String × α)) :
    lookupStr k (eraseKey k l) = none := by
  induction l with
  | nil => rfl
  | cons p rest ih =>
      obtain ⟨k0, w⟩ := p
      rw [eraseKey_cons]
      by_cases h : k0 = k
      · rw [if_pos h]
        exact ih
      · rw [if_neg h, lookupStr_cons, if_neg h]
        exact ih

theorem lookupStr_erase_ne {α : Type} (k k2 : String) (l : List (String × α)) (h : k2 ≠ k) :
    lookupStr k2 (eraseKey k l) = lookupStr k2 l := by
  induction l with
  | nil => rfl
  | cons p rest ih =>
      obtain ⟨k0, w⟩ := p
      rw [eraseKey_cons]
      by_cases h0 : k0 = k
      · subst h0
        rw [if_pos rfl, lookupStr_cons, if_neg (Ne.symm h), ih]
      · rw [if_neg h0, lookupStr_cons, lookupStr_cons, ih]

theorem eraseKey_insertKey {α : Type} (k : String) (v : α) (l : List (String × α))
    (h : lookupStr k l = none) : eraseKey k (insertKey k v l) = l := by
  induction l with
  | nil => simp [insertKey, eraseKey]
  | cons p rest ih =>
      obtain ⟨k0, w⟩ := p
      rw [lookupStr_cons] at h
      by_cases h0 : k0 = k
      · rw [if_pos h0] at h
        exact absurd h (by simp)
      · rw [if_neg h0] at h
        rw [insertKey, if_neg h0, eraseKey_cons, if_neg h0, ih h]

theorem lookupStr_some_mem {α : Type} (k : String) (v : α) (l : List (String × α))
    (h : lookupStr k l = some v) : (k, v) ∈ l := by
  induction l with
  | nil => simp [lookupStr] at h
  | cons p rest ih =>
      obtain ⟨k0, w⟩ := p
      rw [lookupStr_cons] at h
      by_cases h0 : k0 = k
      · subst h0
        rw [if_pos rfl] at h
        cases h
        exact List.mem_cons_self _ _
      · rw [if_neg h0] at h
        exact List.mem_cons_of_mem _ (ih h)

theorem lookupStr_none_iff {α : Type} (k : String) (l : List (String × α)) :
    lookupStr k l = none ↔ k ∉ l.map Prod.fst := by
  induction l with
  | nil => simp [lookupStr]
  | cons p rest ih =>
      obtain ⟨k0, w⟩ := p
      rw [lookupStr_cons]
      by_cases h0 : k0 = k
      · subst h0
        simp
      · simp [h0, Ne.symm h0, ih]

theorem mem_insertKey {α : Type} (k : String) (v : α) (l : List (String × α)) (p : String × α)
    (h : p ∈ insertKey k v l) : p = (k, v) ∨ p ∈ l := by
  induction l with
  | nil => simpa [insertKey] using h
  | cons q rest ih =>
      obtain ⟨k0, w⟩ := q
      by_cases h0 : k0 = k
      · rw [insertKey, if_pos h0] at h
        rcases List.mem_cons.mp h with h1 | h1
        · exact Or.inl h1
        · exact Or.inr (List.mem_cons_of_mem _ h1)
      · rw [insertKey, if_neg h0] at h
        rcases List.mem_cons.mp h with h1 | h1
        · exact Or.inr (by simp [h1])
        · rcases ih h1 with h2 | h2
          · exact Or.inl h2
          · exact Or.inr (List.mem_cons_of_mem _ h2)

/-! ## Frame lemmas: which operation touches which table -/

theorem handleSuccess_eventListeners (id : String) (v : JSValue) (s : BridgeState) :
    ((handleSuccess id v s).1).eventListeners = s.eventListeners := by
  cases hl : lookupStr id s.callbackRegistry <;> simp [handleSuccess, hl, clearTimeout]

theorem handleSuccess_paramsStore (id : String) (v : JSValue) (s : BridgeState) :
    ((handleSuccess id v s).1).paramsStore = s.paramsStore := by
  cases hl : lookupStr id s.callbackRegistry <;> simp [handleSuccess, hl, clearTimeout]

theorem handleFailure_eventListeners (id : String) (v : JSValue) (s : BridgeState) :
    ((handleFailure id v s).1).eventListeners = s.eventListeners := by
  cases hl : lookupStr id s.callbackRegistry <;> simp [handleFailure, hl, clearTimeout]

theorem handleFailure_paramsStore (id : String) (v : JSValue) (s : BridgeState) :
    ((handleFailure id v s).1).paramsStore = s.paramsStore := by
  cases hl : lookupStr id s.callbackRegistry <;> simp [handleFailure, hl, clearTimeout]

theorem fireTimeout_eventListeners (tid : Nat) (rid : String) (s : BridgeState) :
    ((fireTimeout tid rid s).1).eventListeners = s.eventListeners := by
  unfold fireTimeout
  by_cases hm : (tid, rid) ∈ s.activeTimeouts
  · rw [if_pos hm]
    cases hl : lookupStr rid s.callbackRegistry <;>
      simp [hl, handleFailure_eventListeners, clearTimeout]
  · rw [if_neg hm]

theorem fireTimeout_paramsStore (tid : Nat) (rid : String) (s : BridgeState) :
    ((fireTimeout tid rid s).1).paramsStore = s.paramsStore := by
  unfold fireTimeout
  by_cases hm : (tid, rid) ∈ s.activeTimeouts
  · rw [if_pos hm]
    cases hl : lookupStr rid s.callbackRegistry <;>
      simp [hl, handleFailure_paramsStore, clearTimeout]
  · rw [if_neg hm]

theorem call_eventListeners (env : Env) (cn mn p : JSValue) (s : BridgeState) :
    ((call env cn mn p s).1).eventListeners = s.eventListeners := by
  unfold call
  by_cases h1 : isNonEmptyString cn
  · by_cases h2 : isNonEmptyString mn
    · cases h3 : env.channelPresent <;> cases h4 : env.sendFails <;>
        simp [h1, h2, h3, h4, clearTimeout]
    · simp [h1, h2]
  · simp [h1]

theorem call_paramsStore (env : Env) (cn mn p : JSValue) (s : BridgeState) :
    ((call env cn mn p s).1).paramsStore = s.paramsStore := by
  unfold call
  by_cases h1 : isNonEmptyString cn
  · by_cases h2 : isNonEmptyString mn
    · cases h3 : env.channelPresent <;> cases h4 : env.sendFails <;>
        simp [h1, h2, h3, h4, clearTimeout]
    · simp [h1, h2]
  · simp [h1]

theorem dispatchEvent_state (env : Env) (n d : JSValue) (s : BridgeState) :
    (dispatchEvent env n d s).1 = s := by
  cases hl : lookupStr (jsKey n) s.eventListeners <;> simp [dispatchEvent, hl]

theorem setParams_eventListeners (env : Env) (p : JSValue) (s : BridgeState) :
    ((setParams env p s).1).eventListeners = s.eventListeners := by
  unfold setParams
  by_cases h : isObjectLike p
  · simp only [h, not_true, if_false, Bool.not_eq_true', if_neg]
    rw [dispatchEvent_state]
  · simp [h]

theorem receiveMessage_eventListeners (env : Env) (m : JSValue) (s : BridgeState) :
    ((receiveMessage env m s).1).eventListeners = s.eventListeners := by
  unfold receiveMessage
  by_cases h1 : toBool (safeParseJSON m)
  · simp only [h1]
    by_cases h2 : toBool (jsGet (safeParseJSON m) "event")
    · simp only [h2]
      simp [dispatchEvent_state]
    · simp only [h2]
      by_cases h3 : toBool (jsGet (safeParseJSON m) "id") && isBoolVal (jsGet (safeParseJSON m) "success")
      · simp only [h3]
        by_cases h4 : toBool (jsGet (safeParseJSON m) "success") <;>
          simp [h4, handleSuccess_eventListeners, handleFailure_eventListeners]
      · simp [h3]
  · simp [h1]

/-! ## Lemmas about `mergeObj` -/

theorem lookupStr_append {α : Type} (k : String) (l1 l2 : List (String × α)) :
    lookupStr k (l1 ++ l2) =
      match lookupStr k l1 with
      | some v => some v
      | none => lookupStr k l2 := by
  induction l1 with
  | nil => simp [lookupStr_nil]
  | cons p rest ih =>
      obtain ⟨k0, w⟩ := p
      by_cases h0 : k0 = k
      · simp [lookupStr_cons, h0]
      · simp only [List.cons_append, lookupStr_cons, h0, if_false]
        exact ih

theorem lookupStr_mapOverride (k : String) (a b : List (String × JSValue)) :
    lookupStr k (a.map fun p =>
      (p.1, match lookupStr p.1 b with
            | some w => w
            | none => p.2)) =
      match lookupStr k a with
      | some v => some (match lookupStr k b with
                        | some w => w
                        | none => v)
      | none => none := by
  induction a with
  | nil => simp [lookupStr_nil]
  | cons p rest ih =>
      obtain ⟨k0, w⟩ := p
      by_cases h0 : k0 = k
      · subst h0
        simp [lookupStr_cons]
      · simp only [List.map_cons, lookupStr_cons, h0, if_false]
        exact ih

theorem lookupStr_filter_notin (k : String) (a b : List (String × JSValue))
    (h : lookupStr k a = none) :
    lookupStr k (b.filter fun p => lookupStr p.1 a = none) = lookupStr k b := by
  induction b with
  | nil => rfl
  | cons p rest ih =>
      obtain ⟨k1, w⟩ := p
      by_cases hp : lookupStr k1 a = none
      · rw [List.filter_cons_of_pos (by simpa using hp), lookupStr_cons, lookupStr_cons, ih]
      · have hk : k1 ≠ k := fun he => hp (he ▸ h)
        rw [List.filter_cons_of_neg (by simpa using hp), lookupStr_cons, if_neg hk, ih]

theorem mergeObj_lookup (k : String) (a b : List (String × JSValue)) :
    lookupStr k (mergeObj a b) =
      match lookupStr k b with
      | some w => some w
      | none => lookupStr k a := by
  unfold mergeObj
  rw [lookupStr_append, lookupStr_mapOverride]
  cases ha : lookupStr k a with
  | some v => cases hb : lookupStr k b <;> simp
  | none =>
      rw [lookupStr_filter_notin k a b ha]
      cases hb : lookupStr k b <;> simp

/-! ## Decimal strings and uniqueness of generated request ids -/

theorem digitChar_ne_us : ∀ d, d < 10 → digitChar d ≠ '_' := by decide

theorem digitChar_toNat : ∀ d, d < 10 → (digitChar d).toNat = 48 + d := by decide

theorem decDigits_mem (fuel : Nat) :
    ∀ (n : Nat), ∀ c ∈ decDigits fuel n, ∃ d, d < 10 ∧ c = digitChar d := by
  induction fuel with
  | zero => intro n c hc; simp [decDigits] at hc
  | succ fuel ih =>
      intro n c hc
      by_cases h : n = 0
      · simp [decDigits, h] at hc
      · rw [decDigits, if_neg h] at hc
        rcases List.mem_append.mp hc with h1 | h1
        · exact ih _ c h1
        · simp only [List.mem_singleton] at h1
          exact ⟨n % 10, Nat.mod_lt _ (by norm_num), h1⟩

theorem digitsToNat_append (l : List Char) (c : Char) :
    digitsToNat (l ++ [c]) = 10 * digitsToNat l + (c.toNat - 48) := by
  simp [digitsToNat, List.foldl_append, Nat.mul_comm]

theorem decDigits_val (fuel : Nat) :
    ∀ n, n ≤ fuel → digitsToNat (decDigits fuel n) = n := by
  induction fuel with
  | zero =>
      intro n hn
      interval_cases n
      rfl
  | succ fuel ih =>
      intro n hn
      by_cases h : n = 0
      · simp [decDigits, h, digitsToNat]
      · rw [decDigits, if_neg h, digitsToNat_append,
            ih (n / 10) (by omega),
            digitChar_toNat (n % 10) (Nat.mod_lt _ (by norm_num))]
        omega

theorem decimalStr_val (n : Nat) : digitsToNat (decimalStr n).data = n := by
  by_cases h : n = 0
  · simp [decimalStr, h]
    rfl
  · rw [decimalStr, if_neg h]
    exact decDigits_val n n le_rfl

theorem decimalStr_inj (m n : Nat) (h : decimalStr m = decimalStr n) : m = n := by
  have h2 := congrArg (fun s => digitsToNat s.data) h
  simpa [decimalStr_val] using h2

theorem decimalStr_no_us (n : Nat) : ∀ c ∈ (decimalStr n).data, c ≠ '_' := by
  by_cases h : n = 0
  · intro c hc
    rw [decimalStr, if_pos h] at hc
    simp at hc
    rw [hc]
    decide
  · intro c hc
    rw [decimalStr, if_neg h] at hc
    obtain ⟨d, hd, he⟩ := decDigits_mem n n c hc
    rw [he]
    exact digitChar_ne_us d hd

theorem sep_head_inj (x1 : List Char) :
    ∀ (x2 y1 y2 : List Char), (∀ c ∈ x1, c ≠ '_') → (∀ c ∈ x2, c ≠ '_') →
    x1 ++ '_' :: y1 = x2 ++ '_' :: y2 → x1 = x2 ∧ y1 = y2 := by
  induction x1 with
  | nil =>
      intro x2 y1 y2 _ h2 h
      cases x2 with
      | nil => simpa using h
      | cons c t =>
          exfalso
          simp only [List.nil_append, List.cons_append, List.cons.injEq] at h
          exact h2 c (List.mem_cons_self _ _) h.1.symm
  | cons c t ih =>
      intro x2 y1 y2 h1 h2 h
      cases x2 with
      | nil =>
          exfalso
          simp only [List.nil_append, List.cons_append, List.cons.injEq] at h
          exact h1 c (List.mem_cons_self _ _) h.1
      | cons c2 t2 =>
          simp only [List.cons_append, List.cons.injEq] at h
          have hrec := ih t2 y1 y2
            (fun d hd => h1 d (List.mem_cons_of_mem _ hd))
            (fun d hd => h2 d (List.mem_cons_of_mem _ hd)) h.2
          exact ⟨by rw [h.1, hrec.1], hrec.2⟩

theorem sep_last_inj (p1 p2 q1 q2 : List Char)
    (h1 : ∀ c ∈ q1, c ≠ '_') (h2 : ∀ c ∈ q2, c ≠ '_')
    (h : p1 ++ '_' :: q1 = p2 ++ '_' :: q2) : q1 = q2 := by
  have hr := congrArg List.reverse h
  simp only [List.reverse_append, List.reverse_cons] at hr
  rw [List.append_assoc, List.append_assoc, List.singleton_append, List.singleton_append] at hr
  have hrec := sep_head_inj q1.reverse q2.reverse p1.reverse p2.reverse
    (fun d hd => h1 d (List.mem_reverse.mp hd))
    (fun d hd => h2 d (List.mem_reverse.mp hd)) hr
  exact List.reverse_injective hrec.1

theorem string_data_ext (a b : String) (h : a.data = b.data) : a = b := by
  cases a
  cases b
  exact congrArg String.mk h

theorem string_data_append (a b : String) : (a ++ b).data = a.data ++ b.data := by
  cases a
  cases b
  rfl

theorem runListenersCaught_eq_map (env : Env) (data : JSValue) (cbs : List Nat) :
    runListenersCaught env data cbs = cbs.map (fun cb => Action.invoke cb data) := by
  induction cbs with
  | nil => rfl
  | cons cb rest ih =>
      by_cases h : env.cbThrows cb <;> simp [runListenersCaught, h, ih]

theorem clearTimeout_idem (tid : Nat) (s : BridgeState) :
    clearTimeout tid (clearTimeout tid s) = clearTimeout tid s := by
  simp [clearTimeout, List.filter_filter]

theorem filter_fresh_timeouts (l : List (Nat × String)) (tid : Nat) (rid : String)
    (h : ∀ t ∈ l, t.1 ≠ tid) :
    (l ++ [(tid, rid)]).filter (fun t => t.1 ≠ tid) = l := by
  rw [List.filter_append]
  have h1 : l.filter (fun t => t.1 ≠ tid) = l :=
    List.filter_eq_self.mpr (fun a ha => by simpa using h a ha)
  have h2 : ([(tid, rid)] : List (Nat × String)).filter (fun t => t.1 ≠ tid) = [] := by simp
  rw [h1, h2, List.append_nil]

theorem goodTable_of_eq (s s2 : BridgeState) (he : s2.eventListeners = s.eventListeners)
    (h : goodTable s) : goodTable s2 := by
  intro p hp
  rw [he] at hp
  exact h p hp

theorem addListener_eventListeners (en : JSValue) (f : Nat) (s : BridgeState) :
    (addListener en (.fn f) s).eventListeners =
      if isNonEmptyString en then
        match lookupStr (strVal en) s.eventListeners with
        | none => insertKey (strVal en) [f] s.eventListeners
        | some cbs => insertKey (strVal en) (cbs ++ [f]) s.eventListeners
      else s.eventListeners := by
  unfold addListener
  by_cases h1 : isNonEmptyString en
  · rw [if_neg (by simp [h1]), if_pos h1]
    cases hl : lookupStr (strVal en) s.eventListeners <;> simp [hl]
  · rw [if_pos (by simp [h1]), if_neg h1]

theorem addListener_val_state (en : JSValue) (v : JSValue) (s : BridgeState) :
    addListener en (.val v) s = s := by
  unfold addListener
  by_cases h1 : isNonEmptyString en
  · rw [if_neg (by simp [h1])]
  · rw [if_pos (by simp [h1])]

theorem removeListener_eventListeners (en : JSValue) (cb : JSArg) (s : BridgeState) :
    (removeListener en cb s).eventListeners =
      match lookupStr (jsKey en) s.eventListeners with
      | none => s.eventListeners
      | some cbs =>
          if cbs.filter (fun c => JSArg.fn c ≠ cb) = [] then
            eraseKey (jsKey en) s.eventListeners
          else insertKey (jsKey en) (cbs.filter (fun c => JSArg.fn c ≠ cb)) s.eventListeners := by
  unfold removeListener
  cases hl : lookupStr (jsKey en) s.eventListeners with
  | none => simp [hl]
  | some cbs =>
      simp only [hl]
      by_cases hf : cbs.filter (fun c => JSArg.fn c ≠ cb) = []
      · rw [if_pos hf, if_pos hf]
      · rw [if_neg hf, if_neg hf]

theorem goodTable_addListener (en : JSValue) (cb : JSArg) (s : BridgeState)
    (h : goodTable s) : goodTable (addListener en cb s) := by
  cases cb with
  | val v => rw [addListener_val_state]; exact h
  | fn f =>
      intro p hp
      rw [addListener_eventListeners] at hp
      by_cases h1 : isNonEmptyString en
      · rw [if_pos h1] at hp
        cases hl : lookupStr (strVal en) s.eventListeners with
        | none =>
            simp only [hl] at hp
            rcases mem_insertKey _ _ _ _ hp with h2 | h2
            · rw [h2]
              simp
            · exact h p h2
        | some cbs =>
            simp only [hl] at hp
            rcases mem_insertKey _ _ _ _ hp with h2 | h2
            · rw [h2]
              simp
            · exact h p h2
      · rw [if_neg h1] at hp
        exact h p hp

theorem goodTable_removeListener (en : JSValue) (cb : JSArg) (s : BridgeState)
    (h : goodTable s) : goodTable (removeListener en cb s) := by
  intro p hp
  rw [removeListener_eventListeners] at hp
  cases hl : lookupStr (jsKey en) s.eventListeners with
  | none =>
      simp only [hl] at hp
      exact h p hp
  | some cbs =>
      simp only [hl] at hp
      by_cases hf : cbs.filter (fun c => JSArg.fn c ≠ cb) = []
      · rw [if_pos hf] at hp
        exact h p (List.mem_of_mem_filter hp)
      · rw [if_neg hf] at hp
        rcases mem_insertKey _ _ _ _ hp with h2 | h2
        · rw [h2]
          exact hf
        · exact h p h2

theorem generateRequestId_data (t c : Nat) :
    (generateRequestId t c).data =
      ("sa_".data ++ (decimalStr t).data) ++ '_' :: (decimalStr c).data := by
  rw [generateRequestId, string_data_append, string_data_append, string_data_append,
      List.append_assoc]
  rfl

/-- Two generated request ids with distinct counter values are distinct
strings, whatever their timestamps: the counter is the digit run after the
last underscore, and decimal digit runs contain no underscore. -/
theorem generateRequestId_ne (t1 c1 t2 c2 : Nat) (h : c1 ≠ c2) :
    generateRequestId t1 c1 ≠ generateRequestId t2 c2 := by
  intro he
  apply h
  apply decimalStr_inj
  apply string_data_ext
  have hd := congrArg String.data he
  rw [generateRequestId_data, generateRequestId_data] at hd
  exact sep_last_inj _ _ _ _ (decimalStr_no_us c1) (decimalStr_no_us c2) hd

/-! ## The claims -/

/-- C1: settlement happens at most once per request id.  A settlement
attempt (`handleSuccess`, `handleFailure`, or the timeout firing) for an
id with no pending entry is a no-op with no visible state change and no
settlement action; and any settlement removes the id from the registry, so
only the first of success, failure and timeout for an id has any effect. -/
theorem settle_at_most_once (s t : BridgeState) (id : String) (v w : JSValue)
    (hid : lookupStr id s.callbackRegistry = none) :
    handleSuccess id v s = (s, [])
    ∧ handleFailure id v s = (s, [])
    ∧ (∀ tid : Nat, (fireTimeout tid id s).2 = []
        ∧ ((fireTimeout tid id s).1).callbackRegistry = s.callbackRegistry)
    ∧ lookupStr id ((handleSuccess id w t).1).callbackRegistry = none
    ∧ lookupStr id ((handleFailure id w t).1).callbackRegistry = none := by
  refine ⟨by simp [handleSuccess, hid], by simp [handleFailure, hid], ?_, ?_, ?_⟩
  · intro tid
    unfold fireTimeout
    by_cases hm : (tid, id) ∈ s.activeTimeouts
    · rw [if_pos hm]
      simp [hid, clearTimeout]
    · rw [if_neg hm]
      exact ⟨rfl, rfl⟩
  · cases hl : lookupStr id t.callbackRegistry with
    | none => simp [handleSuccess, hl]
    | some e => simp [handleSuccess, hl, lookupStr_erase_self]
  · cases hl : lookupStr id t.callbackRegistry with
    | none => simp [handleFailure, hl]
    | some e => simp [handleFailure, hl, lookupStr_erase_self]

/-- Witness for C1: a settlement of an unknown id is a no-op on the empty
state, and a settlement on the state with `"x"` pending removes `"x"`. -/
theorem settle_at_most_once_witness :
    handleSuccess "x" (.num 1) initialState = (initialState, [])
    ∧ lookupStr "x" ((handleSuccess "x" (.num 2) pendingX).1).callbackRegistry = none :=
  ⟨(settle_at_most_once initialState pendingX "x" (.num 1) (.num 2) rfl).1,
   (settle_at_most_once initialState pendingX "x" (.num 1) (.num 2) rfl).2.2.2.1⟩

/-- C6: `dispatchEvent` leaves the state unchanged and invokes every
currently registered listener for the event, in subscription order, with
the payload — for every environment, including those in which some
listeners throw (the `try`/`catch` makes the trace independent of
`env.cbThrows`, so a throwing listener stops neither the later listeners
nor the dispatcher); dispatching to an event name with no subscriber list
is a no-op. -/
theorem dispatchEvent_spec (env : Env) (eventName data : JSValue) (s : BridgeState) :
    dispatchEvent env eventName data s =
      (s, match lookupStr (jsKey eventName) s.eventListeners with
          | none => []
          | some cbs => cbs.map (fun cb => Action.invoke cb data)) := by
  cases hl : lookupStr (jsKey eventName) s.eventListeners <;>
    simp [dispatchEvent, hl, runListenersCaught_eq_map]

/-- C9: `receiveMessage` on the unparseable string `'not json'` logs and
discards: it returns normally with no action and leaves the whole state —
pending requests, subscriptions and params — unchanged.  (In the model
every operation is a total function; the `try`/`catch` of the source and
the `null` result of `safeParseJSON` are what make the code return
normally here.) -/
theorem receiveMessage_not_json (env : Env) (s : BridgeState) :
    receiveMessage env (.str "not json") s = (s, []) := by
  have h : safeParseJSON (.str "not json") = .null := by rfl
  simp [receiveMessage, h, toBool]

/-- C10: any inbound argument whose parsed value is falsy is dropped by
the `if (!res) return` guard: no dispatcher call, no correlator call, no
state change.  In particular the valid JSON texts `"0"`, `"false"`,
`"null"` and `"\"\""` parse to falsy values and are dropped exactly like
malformed JSON, as are the non-string falsy arguments `null` and `0`. -/
theorem receiveMessage_falsy (env : Env) (v : JSValue) (s : BridgeState)
    (h : toBool (safeParseJSON v) = false) :
    receiveMessage env v s = (s, [])
    ∧ parseJSON "0" = some (.num 0)
    ∧ parseJSON "false" = some (.bool false)
    ∧ parseJSON "null" = some .null
    ∧ parseJSON "\"\"" = some (.str "")
    ∧ receiveMessage env (.str "0") s = (s, [])
    ∧ receiveMessage env (.str "false") s = (s, [])
    ∧ receiveMessage env (.str "null") s = (s, [])
    ∧ receiveMessage env (.str "\"\"") s = (s, [])
    ∧ receiveMessage env .null s = (s, [])
    ∧ receiveMessage env (.num 0) s = (s, []) := by
  have key : ∀ w : JSValue, toBool (safeParseJSON w) = false →
      receiveMessage env w s = (s, []) := by
    intro w hw
    simp [receiveMessage, hw]
  exact ⟨key v h, by decide, by decide, by decide, by decide,
    key _ (by decide), key _ (by decide), key _ (by decide), key _ (by decide),
    key _ (by decide), key _ (by decide)⟩

/-- Witness for C10 at the concrete falsy text `"0"`. -/
theorem receiveMessage_falsy_witness :
    toBool (safeParseJSON (.str "0")) = false
    ∧ receiveMessage envBase (.str "0") initialState = (initialState, []) :=
  ⟨by decide, (receiveMessage_falsy envBase (.str "0") initialState (by decide)).1⟩

/-- C2 fails as stated: `eventFieldMsg` carries an `event` field (with the
falsy value `""`), so by the claim it would be forwarded to the dispatcher
and never touch the correlator; but the code tests `res.event` for
truthiness, falls through to the response branch, and settles the pending
request `"x"` — the registry entry is consumed and a resolution is
emitted. -/
theorem receiveMessage_event_field_cex :
    jsGet eventFieldMsg "event" = .str ""
    ∧ pendingX.callbackRegistry ≠ []
    ∧ ((receiveMessage envBase eventFieldMsg pendingX).1).callbackRegistry = []
    ∧ (receiveMessage envBase eventFieldMsg pendingX).2 = [Action.resolve "x" .undefined] := by
  refine ⟨by decide, by decide, ?_, ?_⟩ <;> decide

/-- C2 (amended): `receiveMessage` classifies every truthy parsed message
into exactly one case by truthiness of its fields: a truthy `event` field
goes to the dispatcher (and the whole state, the correlator's registry
included, is untouched); otherwise a truthy `id` field together with a
boolean `success` goes to `handleSuccess` on `success = true` and to
`handleFailure` with `error || {error: 'Unknown error'}` on
`success = false` (the subscriber table untouched); any other message is
ignored with no state change. -/
theorem receiveMessage_classification (env : Env) (m : JSValue) (s : BridgeState)
    (ht : toBool (safeParseJSON m) = true) :
    (toBool (jsGet (safeParseJSON m) "event") = true →
      receiveMessage env m s
        = dispatchEvent env (jsGet (safeParseJSON m) "event") (jsGet (safeParseJSON m) "data") s
      ∧ (receiveMessage env m s).1 = s)
    ∧ (toBool (jsGet (safeParseJSON m) "event") = false →
       toBool (jsGet (safeParseJSON m) "id") = true →
       jsGet (safeParseJSON m) "success" = .bool true →
        receiveMessage env m s
          = handleSuccess (jsKey (jsGet (safeParseJSON m) "id")) (jsGet (safeParseJSON m) "data") s
        ∧ ((receiveMessage env m s).1).eventListeners = s.eventListeners)
    ∧ (toBool (jsGet (safeParseJSON m) "event") = false →
       toBool (jsGet (safeParseJSON m) "id") = true →
       jsGet (safeParseJSON m) "success" = .bool false →
        receiveMessage env m s
          = handleFailure (jsKey (jsGet (safeParseJSON m) "id"))
              (jsOr (jsGet (safeParseJSON m) "error") unknownErrorPayload) s
        ∧ ((receiveMessage env m s).1).eventListeners = s.eventListeners)
    ∧ (toBool (jsGet (safeParseJSON m) "event") = false →
       (toBool (jsGet (safeParseJSON m) "id") = false
        ∨ isBoolVal (jsGet (safeParseJSON m) "success") = false) →
        receiveMessage env m s = (s, [])) := by
  refine ⟨?_, ?_, ?_, ?_⟩
  · intro hev
    constructor
    · simp [receiveMessage, ht, hev]
    · simp [receiveMessage, ht, hev, dispatchEvent_state]
  · intro hev hid hsuc
    have hb : isBoolVal (jsGet (safeParseJSON m) "success") = true := by rw [hsuc]; rfl
    have hs : toBool (jsGet (safeParseJSON m) "success") = true := by rw [hsuc]; rfl
    constructor
    · simp [receiveMessage, ht, hev, hid, hb, hs]
    · simp [receiveMessage, ht, hev, hid, hb, hs, handleSuccess_eventListeners]
  · intro hev hid hsuc
    have hb : isBoolVal (jsGet (safeParseJSON m) "success") = true := by rw [hsuc]; rfl
    have hs : toBool (jsGet (safeParseJSON m) "success") = false := by rw [hsuc]; rfl
    constructor
    · simp [receiveMessage, ht, hev, hid, hb, hs]
    · simp [receiveMessage, ht, hev, hid, hb, hs, handleFailure_eventListeners]
  · intro hev hrest
    rcases hrest with hid | hbool
    · simp [receiveMessage, ht, hev, hid]
    · simp [receiveMessage, ht, hev, hbool]

/-- Witness for C2 (amended): a concrete event message is routed to the
dispatcher. -/
theorem receiveMessage_classification_witness :
    receiveMessage envBase (.obj [("event", .str "boom"), ("data", .num 7)]) initialState
      = dispatchEvent envBase (.str "boom") (.num 7) initialState :=
  ((receiveMessage_classification envBase (.obj [("event", .str "boom"), ("data", .num 7)])
    initialState (by decide)).1 (by decide)).1

/-- C5 fails as stated: on the state with `"x"` pending, the timeout does
not behave like `handleFailure(id, {reason: "timeout"})` — the payload the
code passes is `{error: "Request Timeout"}`. -/
theorem fireTimeout_payload_cex :
    fireTimeout 0 "x" pendingX
      ≠ handleFailure "x" (.obj [("reason", .str "timeout")]) pendingX
    ∧ (fireTimeout 0 "x" pendingX).2
        = [Action.reject "x" (.obj [("error", .str "Request Timeout")])] := by
  constructor <;> decide

/-- C5 (amended): when the timers and the registry are consistent (the
pending entry for `rid`, if any, owns exactly the scheduled timer
`(tid, rid)`, and no timer is scheduled for a settled id — the invariant
every reachable state satisfies), the firing of the timeout is equivalent
to calling `handleFailure(id, {error: "Request Timeout"})` internally; in
particular it has an effect only if the entry is still pending, so in a
race between a response and the timeout, whichever settles first wins and
the other is a no-op. -/
theorem fireTimeout_equiv (tid : Nat) (rid : String) (s : BridgeState)
    (h : match lookupStr rid s.callbackRegistry with
         | some e => e.timeoutId = tid ∧ (tid, rid) ∈ s.activeTimeouts
         | none => (tid, rid) ∉ s.activeTimeouts) :
    fireTimeout tid rid s = handleFailure rid timeoutPayload s
    ∧ (lookupStr rid s.callbackRegistry = none → fireTimeout tid rid s = (s, [])) := by
  cases hl : lookupStr rid s.callbackRegistry with
  | none =>
      simp only [hl] at h
      constructor
      · unfold fireTimeout
        rw [if_neg h]
        simp [handleFailure, hl]
      · intro _
        unfold fireTimeout
        rw [if_neg h]
  | some e =>
      simp only [hl] at h
      obtain ⟨het, hm⟩ := h
      constructor
      · unfold fireTimeout
        rw [if_pos hm]
        have hl2 : lookupStr rid (clearTimeout tid s).callbackRegistry = some e := hl
        simp only [hl2]
        simp [handleFailure, hl, het, clearTimeout, List.filter_filter]
      · intro hnone
        exact absurd hnone (by simp)

/-- Witness for C5 (amended) on the state with `"x"` pending. -/
theorem fireTimeout_equiv_witness :
    fireTimeout 0 "x" pendingX = handleFailure "x" timeoutPayload pendingX :=
  (fireTimeout_equiv 0 "x" pendingX ⟨rfl, by decide⟩).1

/-- C8 fails as stated: `getParams(key)` does not return the value stored
at `key` for every key, because the source tests `key` for truthiness —
on the falsy key `""` it returns a copy of the whole store instead of the
stored value. -/
theorem getParams_empty_key_cex :
    lookupStr "" emptyKeyStore.paramsStore = some (.num 5)
    ∧ getParams (.str "") emptyKeyStore ≠ .num 5
    ∧ getParams (.str "") emptyKeyStore = .obj [("", .num 5)] := by
  refine ⟨by decide, by decide, by decide⟩

/-- C8 (amended): `setParams` on a non-null object shallow-merges it into
the store (new keys added, existing keys overwritten, untouched keys
preserved) and dispatches a `paramsUpdated` event carrying the full
updated store; `getParams()` with no key (`undefined`) returns the whole
store, and `getParams(key)` returns the value stored at `key` for every
truthy key — a falsy key such as `""` behaves like the no-key case.  The
example chain of the claim holds. -/
theorem params_spec (env : Env) (s : BridgeState) (kvs : List (String × JSValue)) (k : String)
    (hk : k ≠ "") :
    setParams env (.obj kvs) s
      = dispatchEvent env (.str "paramsUpdated") (.obj (mergeObj s.paramsStore kvs))
          { s with paramsStore := mergeObj s.paramsStore kvs }
    ∧ ((setParams env (.obj kvs) s).1).paramsStore = mergeObj s.paramsStore kvs
    ∧ (∀ k2, lookupStr k2 (mergeObj s.paramsStore kvs)
        = match lookupStr k2 kvs with
          | some w => some w
          | none => lookupStr k2 s.paramsStore)
    ∧ getParams .undefined s = .obj s.paramsStore
    ∧ getParams (.str k) s
        = (match lookupStr k s.paramsStore with
           | some v => v
           | none => .undefined)
    ∧ ((setParams env (.obj [("b", .num 2)])
          ((setParams env (.obj [("a", .num 1)]) initialState).1)).1).paramsStore
        = [("a", .num 1), ("b", .num 2)]
    ∧ ((setParams env (.obj [("a", .num 3)])
          ((setParams env (.obj [("b", .num 2)])
            ((setParams env (.obj [("a", .num 1)]) initialState).1)).1)).1).paramsStore
        = [("a", .num 3), ("b", .num 2)] := by
  have h1 : setParams env (.obj kvs) s
      = dispatchEvent env (.str "paramsUpdated") (.obj (mergeObj s.paramsStore kvs))
          { s with paramsStore := mergeObj s.paramsStore kvs } := by
    simp [setParams, isObjectLike, fieldsOf]
  refine ⟨h1, ?_, fun k2 => mergeObj_lookup k2 s.paramsStore kvs, by simp [getParams, toBool],
    ?_, ?_, ?_⟩
  · rw [h1, dispatchEvent_state]
  · simp [getParams, toBool, jsKey, hk]
  · rfl
  · rfl

/-- Witness for C8 (amended) at the key `"a"` of a concrete store. -/
theorem params_spec_witness :
    getParams (.str "a") abStore = .num 1 :=
  (params_spec envBase abStore [] "a" (by decide)).2.2.2.2.1

/-- C3: every local failure of `call` — invalid `className`, invalid
`methodName`, missing transport capability, or a throwing `postMessage` —
rejects the returned promise before `call` returns, leaves no pending
entry in the registry and no scheduled timeout, and in the two validation
cases does not touch the transport (no send, and not even the counter
moves).  The hypotheses say the generated request id and timer handle are
fresh, which every reachable state guarantees. -/
theorem call_local_failures (env : Env) (cn mn p : JSValue) (s : BridgeState)
    (hrid : lookupStr (generateRequestId s.now s.requestIdCounter) s.callbackRegistry = none)
    (htid : ∀ t ∈ s.activeTimeouts, t.1 ≠ s.nextTimeoutId) :
    (isNonEmptyString cn = false →
      call env cn mn p s = (s, [], .rejected "Invalid className"))
    ∧ (isNonEmptyString cn = true → isNonEmptyString mn = false →
      call env cn mn p s = (s, [], .rejected "Invalid methodName"))
    ∧ (isNonEmptyString cn = true → isNonEmptyString mn = true →
       env.channelPresent = false →
      call env cn mn p s =
        ({ s with requestIdCounter := s.requestIdCounter + 1,
                  nextTimeoutId := s.nextTimeoutId + 1 },
         [], .rejected "SuperAppChannel is not available!"))
    ∧ (∀ msg, isNonEmptyString cn = true → isNonEmptyString mn = true →
       env.channelPresent = true → env.sendFails = some msg →
      call env cn mn p s =
        ({ s with requestIdCounter := s.requestIdCounter + 1,
                  nextTimeoutId := s.nextTimeoutId + 1 },
         [Action.send (generateRequestId s.now s.requestIdCounter) (strVal cn) (strVal mn) p],
         .rejected ("Failed to send message: " ++ msg))) := by
  have hreg : eraseKey (generateRequestId s.now s.requestIdCounter)
      (insertKey (generateRequestId s.now s.requestIdCounter)
        { timestamp := s.now, timeoutId := s.nextTimeoutId } s.callbackRegistry)
      = s.callbackRegistry :=
    eraseKey_insertKey _ _ _ hrid
  have hact : (s.activeTimeouts
      ++ [(s.nextTimeoutId, generateRequestId s.now s.requestIdCounter)]).filter
        (fun t => t.1 ≠ s.nextTimeoutId) = s.activeTimeouts :=
    filter_fresh_timeouts _ _ _ htid
  refine ⟨?_, ?_, ?_, ?_⟩
  · intro h1
    simp [call, h1]
  · intro h1 h2
    simp [call, h1, h2]
  · intro h1 h2 h3
    simp [call, h1, h2, h3, clearTimeout, hreg, hact]
    exact fun a b hab => htid (a, b) hab
  · intro msg h1 h2 h3 h4
    simp [call, h1, h2, h3, h4, clearTimeout, hreg, hact]
    exact fun a b hab => htid (a, b) hab

/-- Witness for C3: with no transport capability, a valid call fails
immediately, leaving only the bumped counters behind. -/
theorem call_local_failures_witness :
    call envNoChannel (.str "a") (.str "b") (.obj []) initialState
      = ({ initialState with requestIdCounter := 2, nextTimeoutId := 1 },
         [], .rejected "SuperAppChannel is not available!") :=
  (call_local_failures envNoChannel (.str "a") (.str "b") (.obj []) initialState rfl
    (by decide)).2.2.1 rfl rfl rfl

/-- C4 fails as stated: a call with valid arguments but no transport
capability present sends no outbound message at all. -/
theorem call_no_channel_no_send_cex :
    isNonEmptyString (.str "a") = true
    ∧ isNonEmptyString (.str "b") = true
    ∧ (call envNoChannel (.str "a") (.str "b") (.obj []) initialState).2.1 = [] := by
  refine ⟨by decide, by decide, by decide⟩

/-- C4 (amended): provided the transport channel is present, every call
with valid arguments hands exactly one outbound message to it (also when
`postMessage` then raises), carrying the id generated from the current
timestamp and counter; the counter is seeded at 1 and incremented by this
call, and ids generated with distinct counter values are distinct
whatever their timestamps — so each call's id differs from that of every
earlier call. -/
theorem call_sends_fresh_id (env : Env) (cn mn p : JSValue) (s : BridgeState)
    (hch : env.channelPresent = true)
    (hcn : isNonEmptyString cn = true) (hmn : isNonEmptyString mn = true) :
    (call env cn mn p s).2.1
      = [Action.send (generateRequestId s.now s.requestIdCounter) (strVal cn) (strVal mn) p]
    ∧ ((call env cn mn p s).1).requestIdCounter = s.requestIdCounter + 1
    ∧ initialState.requestIdCounter = 1
    ∧ (∀ t1 c1 t2 c2 : Nat, c1 ≠ c2 →
        generateRequestId t1 c1 ≠ generateRequestId t2 c2) := by
  refine ⟨?_, ?_, rfl, fun t1 c1 t2 c2 hne => generateRequestId_ne t1 c1 t2 c2 hne⟩
  · cases hsf : env.sendFails <;> simp [call, hcn, hmn, hch, hsf]
  · cases hsf : env.sendFails <;> simp [call, hcn, hmn, hch, hsf, clearTimeout]

/-- Witness for C4 (amended): the first call from the initial state sends
one message with id `"sa_0_1"`. -/
theorem call_sends_fresh_id_witness :
    (call envBase (.str "a") (.str "b") (.obj []) initialState).2.1
      = [Action.send "sa_0_1" "a" "b" (.obj [])]
    ∧ generateRequestId 0 1 ≠ generateRequestId 5 2 :=
  ⟨(call_sends_fresh_id envBase (.str "a") (.str "b") (.obj []) initialState rfl rfl rfl).1,
   (call_sends_fresh_id envBase (.str "a") (.str "b") (.obj []) initialState rfl rfl rfl).2.2.2
     0 1 5 2 (by decide)⟩

/-- C7: the subscriber table never maps a name to an empty listener list —
the invariant is preserved by every operation of the bridge — so
`getRegisteredEvents` returns exactly the names with at least one active
listener; `addListener` creates the list on first registration, and
`removeListener` removes all entries reference-equal to the callback and
deletes the event's slot entirely once the list becomes empty (and leaves
every other name untouched). -/
theorem listener_table_spec (env : Env) (op : Op) (s : BridgeState) (h : goodTable s) :
    goodTable (step env op s).1
    ∧ (∀ n, n ∈ getRegisteredEvents s
        ↔ ∃ cbs, lookupStr n s.eventListeners = some cbs ∧ cbs ≠ [])
    ∧ (∀ (en : JSValue) (f : Nat), isNonEmptyString en = true →
        lookupStr (strVal en) s.eventListeners = none →
        lookupStr (strVal en) ((addListener en (.fn f) s).eventListeners) = some [f])
    ∧ (∀ (en : JSValue) (cb : JSArg) (k : String),
        lookupStr k ((removeListener en cb s).eventListeners)
          = if k = jsKey en then
              match lookupStr k s.eventListeners with
              | none => none
              | some cbs =>
                  if cbs.filter (fun c => JSArg.fn c ≠ cb) = [] then none
                  else some (cbs.filter (fun c => JSArg.fn c ≠ cb))
            else lookupStr k s.eventListeners) := by
  refine ⟨?_, ?_, ?_, ?_⟩
  · cases op with
    | call cn mn p2 => exact goodTable_of_eq s _ (call_eventListeners env cn mn p2 s) h
    | handleSuccess id v => exact goodTable_of_eq s _ (handleSuccess_eventListeners id v s) h
    | handleFailure id v => exact goodTable_of_eq s _ (handleFailure_eventListeners id v s) h
    | fireTimeout tid rid => exact goodTable_of_eq s _ (fireTimeout_eventListeners tid rid s) h
    | addListener en cb => exact goodTable_addListener en cb s h
    | removeListener en cb => exact goodTable_removeListener en cb s h
    | dispatchEvent n d =>
        exact goodTable_of_eq s _ (by rw [step, dispatchEvent_state]) h
    | setParams p2 => exact goodTable_of_eq s _ (setParams_eventListeners env p2 s) h
    | receiveMessage m => exact goodTable_of_eq s _ (receiveMessage_eventListeners env m s) h
  · intro n
    constructor
    · intro hn
      cases hl : lookupStr n s.eventListeners with
      | none => exact absurd hn ((lookupStr_none_iff n s.eventListeners).mp hl)
      | some cbs => exact ⟨cbs, rfl, h (n, cbs) (lookupStr_some_mem n cbs _ hl)⟩
    · rintro ⟨cbs, hl, _⟩
      by_contra hn
      rw [(lookupStr_none_iff n s.eventListeners).mpr hn] at hl
      cases hl
  · intro en f h1 h2
    rw [addListener_eventListeners, if_pos h1]
    simp only [h2]
    exact lookupStr_insert_self _ _ _
  · intro en cb k
    rw [removeListener_eventListeners]
    cases hl : lookupStr (jsKey en) s.eventListeners with
    | none =>
        by_cases hk : k = jsKey en
        · subst hk
          simp [hl]
        · simp [hl, hk]
    | some cbs =>
        by_cases hf : cbs.filter (fun c => JSArg.fn c ≠ cb) = []
        · simp only [hl]
          rw [if_pos hf]
          by_cases hk : k = jsKey en
          · subst hk
            rw [if_pos rfl]
            simp only [hl]
            rw [if_pos hf]
            exact lookupStr_erase_self _ _
          · rw [if_neg hk]
            exact lookupStr_erase_ne _ _ _ hk
        · simp only [hl]
          rw [if_neg hf]
          by_cases hk : k = jsKey en
          · subst hk
            rw [if_pos rfl]
            simp only [hl]
            rw [if_neg hf]
            exact lookupStr_insert_self _ _ _
          · rw [if_neg hk]
            exact lookupStr_insert_ne _ _ _ _ hk

/-- Witness for C7: registering then removing a sole listener leaves the
table without the event name, and the invariant holds along the way. -/
theorem listener_table_spec_witness :
    goodTable (step envBase (.addListener (.str "evt") (.fn 1)) initialState).1
    ∧ lookupStr "evt"
        ((removeListener (.str "evt") (.fn 1)
          (addListener (.str "evt") (.fn 1) initialState)).eventListeners) = none :=
  ⟨(listener_table_spec envBase (.addListener (.str "evt") (.fn 1)) initialState
      (fun p hp => absurd hp (List.not_mem_nil p))).1,
   by
    have h4 := (listener_table_spec envBase (.addListener (.str "evt") (.fn 1))
      (addListener (.str "evt") (.fn 1) initialState)
      (goodTable_addListener _ _ _ (fun p hp => absurd hp (List.not_mem_nil p)))).2.2.2
    rw [h4 (.str "evt") (.fn 1) "evt"]
    decide⟩

end MiniAppBridge
